import Mathlib

/-!
Verification of the caching and locking primitives of the `asm` skill manager.

The development shallowly embeds the relevant parts of `asm/util.py` and
`asm/__main__.py`:

* `cached_property.__get__` (util.py, lines 75-88): per-instance TTL cache on
  a computed attribute.  Time values (`time.monotonic()` readings and the
  `ttl` option) are modelled as integers (the code uses times only through subtraction and order comparison, which the integers model exactly); the per-(instance, attribute-name)
  cache entry of `inst._cache` is an `Option (value × last_update)`.  A
  missing `_cache` attribute and a missing dictionary key both raise into the
  same `except (KeyError, AttributeError)` handler in the source, so both are
  modelled as `none`.
* `AsmProcessLock.__init__` (util.py, lines 24-31): first-use creation of the
  sentinel lock file followed by `chmod 0o777`, modelled as a small transition
  system so that two racing initializers can be interleaved.
* `main` (`__main__.py`, lines 96-107): the `with asm.lock:` guarded region
  around the command dispatch, modelled as an event trace.
-/

/-- Expiry test from `cached_property.__get__` (util.py line 79):
`self.ttl > 0 and now - last_update > self.ttl`. -/
def cacheExpired (ttl last_update now : ℤ) : Bool :=
  decide (ttl > 0) && decide (now - last_update > ttl)

/-- Cache-miss test of one read access: the read misses when no entry exists
for the attribute name (`KeyError`, or `AttributeError` from a missing
`_cache` attribute) or when the entry is expired (the explicit
`raise AttributeError` at util.py line 80). -/
def cacheMiss {α : Type} (ttl : ℤ) (entry : Option (α × ℤ)) (now : ℤ) : Bool :=
  match entry with
  | none => true
  | some (_, last_update) => cacheExpired ttl last_update now

/-- One read access of the wrapped attribute, following
`cached_property.__get__` (util.py lines 75-88).  `entry` is the cache entry
stored for this property's name on the instance before the access, `now` the
`time.monotonic()` reading taken at line 76, and `fget` the outcome the
wrapped computation produces if it is invoked (`Except.error` models the
computation raising).  Returns the access result together with the cache
entry after the access: on a hit the entry is untouched and `fget` is never
consulted; on a miss the computation runs, and only a successful value is
stored as `(value, now)` — the store at line 87 is unreachable when line 82
raises, so an error leaves the entry exactly as it was. -/
def cachedGetStep {α ε : Type} (ttl : ℤ) (entry : Option (α × ℤ)) (now : ℤ)
    (fget : Except ε α) : Except ε α × Option (α × ℤ) :=
  match entry with
  | some (value, last_update) =>
    if cacheExpired ttl last_update now then
      match fget with
      | .ok v => (.ok v, some (v, now))
      | .error e => (.error e, some (value, last_update))
    else
      (.ok value, some (value, last_update))
  | none =>
    match fget with
    | .ok v => (.ok v, some (v, now))
    | .error e => (.error e, none)

/-- One read access in the case where the wrapped computation succeeds with
value `v` if invoked; the pure form of `cachedGetStep` used to chain several
accesses. -/
def cachedGetOk {α : Type} (ttl : ℤ) (entry : Option (α × ℤ)) (now : ℤ)
    (v : α) : α × Option (α × ℤ) :=
  match entry with
  | some (value, last_update) =>
    if cacheExpired ttl last_update now then (v, some (v, now))
    else (value, some (value, last_update))
  | none => (v, some (v, now))

/-- On successful computations `cachedGetStep` is `cachedGetOk`. -/
theorem cachedGetStep_ok {α ε : Type} (ttl : ℤ) (entry : Option (α × ℤ))
    (now : ℤ) (v : α) :
    cachedGetStep (ε := ε) ttl entry now (.ok v) =
      (.ok (cachedGetOk ttl entry now v).1, (cachedGetOk ttl entry now v).2) := by
  match entry with
  | none => rfl
  | some (value, last_update) =>
    by_cases h : cacheExpired ttl last_update now = true <;>
      simp [cachedGetStep, cachedGetOk, h]

/-- A sequence of read accesses on one instance, each given as a pair of the
clock reading at the access and the value the wrapped computation would
return if invoked there.  Produces the list of values the accesses return,
the final cache entry, and the number of times the wrapped computation was
actually invoked (the number of misses). -/
def runReads {α : Type} (ttl : ℤ) :
    Option (α × ℤ) → List (ℤ × α) → List α × Option (α × ℤ) × ℕ
  | entry, [] => ([], entry, 0)
  | entry, (now, v) :: rest =>
    let inv : ℕ := if cacheMiss ttl entry now then 1 else 0
    let step := cachedGetOk ttl entry now v
    let tail := runReads ttl step.2 rest
    (step.1 :: tail.1, tail.2.1, inv + tail.2.2)

/-- Manual invalidation, `del inst._cache[name]` (util.py line 61): the entry
stored for the attribute name is removed, whatever it was. -/
def invalidate {α : Type} : Option (α × ℤ) → Option (α × ℤ) :=
  fun _ => none

/-- Per-instance cache storage: `inst._cache` lives on each owner instance
(util.py lines 84-87), modelled as a map from an instance identifier to that
instance's entry for the wrapped attribute.  A read access on instance `i`
rewrites only instance `i`'s entry. -/
def getOnInstance {α : Type} (ttl : ℤ) (store : ℕ → Option (α × ℤ)) (i : ℕ)
    (now : ℤ) (v : α) : α × (ℕ → Option (α × ℤ)) :=
  let r := cachedGetOk ttl (store i) now v
  (r.1, fun j => if j = i then r.2 else store j)

/-- A non-positive `ttl` makes the expiry test false: the conjunction at
util.py line 79 short-circuits on `self.ttl > 0`. -/
theorem cacheExpired_nonpos {ttl last_update now : ℤ} (h : ttl ≤ 0) :
    cacheExpired ttl last_update now = false := by
  simp [cacheExpired]
  intro h'
  exact absurd h' (not_lt.mpr h)

/-- With a non-positive `ttl` every read sequence behaves as with `ttl = 0`. -/
theorem runReads_nonpos_eq_zero {α : Type} {ttl : ℤ} (h : ttl ≤ 0)
    (entry : Option (α × ℤ)) (reads : List (ℤ × α)) :
    runReads ttl entry reads = runReads 0 entry reads := by
  induction reads generalizing entry with
  | nil => rfl
  | cons p rest ih =>
    obtain ⟨now, v⟩ := p
    match entry with
    | none =>
      simp [runReads, cacheMiss, cachedGetOk, ih]
    | some (value, last_update) =>
      simp [runReads, cacheMiss, cachedGetOk, cacheExpired_nonpos h,
        cacheExpired_nonpos (le_refl (0 : ℤ)), ih]

/-- With `ttl = 0` and a live entry, every further read hits: the values
returned are the cached one, the entry never changes and the computation is
never invoked. -/
theorem runReads_zero_hit {α : Type} (v0 : α) (t0 : ℤ)
    (reads : List (ℤ × α)) :
    runReads 0 (some (v0, t0)) reads =
      (List.replicate reads.length v0, some (v0, t0), 0) := by
  induction reads with
  | nil => rfl
  | cons p rest ih =>
    obtain ⟨now, v⟩ := p
    simp [runReads, cacheMiss, cachedGetOk,
      cacheExpired_nonpos (le_refl (0 : ℤ)), ih, List.replicate]

/-- C1: for `ttl > 0`, two reads less than `ttl` seconds apart by the
monotonic clock (so the second reading is not earlier than the first), with
no invalidation between them, invoke the wrapped computation exactly once and
both return the identical first value; the entry keeps the first timestamp. -/
theorem cached_property_two_reads_within_ttl {α : Type} (ttl t1 t2 : ℤ)
    (v1 v2 : α) (_httl : 0 < ttl) (_hmono : t1 ≤ t2) (hlt : t2 - t1 < ttl) :
    runReads ttl none [(t1, v1), (t2, v2)] = ([v1, v1], some (v1, t1), 1) := by
  have hexp : cacheExpired ttl t1 t2 = false := by
    simp [cacheExpired]
    intro _
    omega
  simp [runReads, cacheMiss, cachedGetOk, hexp]

/-- Witness for C1: `ttl = 300`, reads at times 0 and 100. -/
theorem cached_property_two_reads_within_ttl_witness :
    (0 : ℤ) < 300 ∧ (0 : ℤ) ≤ 100 ∧ (100 : ℤ) - 0 < 300 ∧
      runReads 300 none [((0 : ℤ), (5 : ℕ)), (100, 7)] =
        ([5, 5], some (5, 0), 1) :=
  ⟨by decide, by decide, by decide,
    cached_property_two_reads_within_ttl 300 0 100 5 7 (by decide) (by decide)
      (by decide)⟩

/-- C2: for `ttl > 0`, a read with `now - last_update > ttl` is treated as a
miss: the wrapped computation is invoked, the entry is overwritten with the
new value and the new timestamp `now` — so even an unchanged value gets an
updated timestamp — and the new value is returned. -/
theorem cached_property_expired_read_recomputes {α : Type} (ttl last now : ℤ)
    (vold vnew : α) (httl : 0 < ttl) (hexp : now - last > ttl) :
    cacheMiss ttl (some (vold, last)) now = true ∧
      cachedGetOk ttl (some (vold, last)) now vnew = (vnew, some (vnew, now)) := by
  have h : cacheExpired ttl last now = true := by
    simp [cacheExpired]
    exact ⟨httl, hexp⟩
  simp [cacheMiss, cachedGetOk, h]

/-- Witness for C2: `ttl = 300`, entry written at time 0, read at time 400,
with the recomputed value equal to the old one — the timestamp still moves. -/
theorem cached_property_expired_read_recomputes_witness :
    (0 : ℤ) < 300 ∧ (400 : ℤ) - 0 > 300 ∧
      (cacheMiss 300 (some ((5 : ℕ), (0 : ℤ))) 400 = true ∧
        cachedGetOk 300 (some ((5 : ℕ), (0 : ℤ))) 400 5 = (5, some (5, 400))) :=
  ⟨by decide, by decide,
    cached_property_expired_read_recomputes 300 0 400 5 5 (by decide) (by decide)⟩

/-- C3: with `ttl = 0` the cached value never expires: starting from no
entry, a first read at any time followed by arbitrarily many further reads at
arbitrary times invokes the wrapped computation exactly once (on the first
read), and every read returns that first value. -/
theorem cached_property_ttl_zero_never_expires {α : Type} (t0 : ℤ) (v0 : α)
    (reads : List (ℤ × α)) :
    runReads 0 none ((t0, v0) :: reads) =
      (v0 :: List.replicate reads.length v0, some (v0, t0), 1) := by
  simp [runReads, cacheMiss, cachedGetOk, runReads_zero_hit]

/-- C4: when the wrapped computation raises on an access that invokes it (a
miss: first access, or recompute after expiry), the error propagates verbatim
to the caller and the cache entry is left exactly as it was before the access
— a failed computation is never cached as if it succeeded. -/
theorem cached_property_error_propagates {α ε : Type} (ttl now : ℤ)
    (entry : Option (α × ℤ)) (e : ε)
    (hmiss : cacheMiss ttl entry now = true) :
    cachedGetStep ttl entry now (.error e) = (.error e, entry) := by
  match entry with
  | none => rfl
  | some (value, last_update) =>
    simp [cacheMiss] at hmiss
    simp [cachedGetStep, hmiss]

/-- Witness for C4: a first access (no entry) whose computation raises. -/
theorem cached_property_error_propagates_witness :
    cacheMiss 300 (none : Option (ℕ × ℤ)) 0 = true ∧
      cachedGetStep 300 (none : Option (ℕ × ℤ)) 0 (.error "boom") =
        (.error "boom", none) :=
  ⟨rfl, cached_property_error_propagates 300 0 none "boom" rfl⟩

/-- C8: deleting the stored entry (manual invalidation, with no other method
call) always forces the wrapped computation to run on the next read, even
when the deleted entry was still within its TTL window: after invalidation
any read is a miss, and the freshly computed value is stored with the read's
timestamp and returned. -/
theorem cached_property_invalidate_forces_recompute {α : Type} (ttl : ℤ)
    (entry : Option (α × ℤ)) (now : ℤ) (v : α) :
    cacheMiss ttl (invalidate entry) now = true ∧
      cachedGetOk ttl (invalidate entry) now v = (v, some (v, now)) :=
  ⟨rfl, rfl⟩

/-- C9: the cache is instance-scoped: a read access on instance `i` — hit or
recompute — leaves every other instance's cache entry, value and expiry
timestamp alike, unchanged. -/
theorem cached_property_instance_scoped {α : Type} (ttl : ℤ)
    (store : ℕ → Option (α × ℤ)) (i j : ℕ) (now : ℤ) (v : α) (hij : j ≠ i) :
    (getOnInstance ttl store i now v).2 j = store j := by
  simp [getOnInstance, hij]

/-- Witness for C9: instance 1 holds an entry; a recomputing read on
instance 0 leaves instance 1's entry untouched. -/
theorem cached_property_instance_scoped_witness :
    (1 : ℕ) ≠ 0 ∧
      (getOnInstance 300
          (fun k => if k = 1 then some ((9 : ℕ), (50 : ℤ)) else none)
          0 60 4).2 1 =
        (fun k : ℕ => if k = 1 then some ((9 : ℕ), (50 : ℤ)) else none) 1 :=
  ⟨by decide,
    cached_property_instance_scoped 300
      (fun k => if k = 1 then some ((9 : ℕ), (50 : ℤ)) else none) 0 1 60 4
      (by decide)⟩

/-- C10: a negative `ttl` behaves exactly as `ttl = 0`: the expiry test is
skipped (it short-circuits on `ttl > 0`), so every read sequence returns the
same values, ends with the same entry and invokes the wrapped computation the
same number of times as with `ttl = 0` — once per instance until manual
invalidation. -/
theorem cached_property_negative_ttl_like_zero {α : Type} (ttl last now : ℤ)
    (httl : ttl < 0) (entry : Option (α × ℤ)) (reads : List (ℤ × α)) :
    cacheExpired ttl last now = false ∧
      runReads ttl entry reads = runReads 0 entry reads :=
  ⟨cacheExpired_nonpos (le_of_lt httl),
    runReads_nonpos_eq_zero (le_of_lt httl) entry reads⟩

/-- Witness for C10: `ttl = -1` on a two-read sequence far apart in time. -/
theorem cached_property_negative_ttl_like_zero_witness :
    (-1 : ℤ) < 0 ∧
      (cacheExpired (-1) 0 1000 = false ∧
        runReads (-1) (none : Option (ℕ × ℤ)) [(0, 3), (1000, 8)] =
          runReads 0 none [(0, 3), (1000, 8)]) :=
  ⟨by decide,
    cached_property_negative_ttl_like_zero (-1) 0 1000 (by decide) none
      [(0, 3), (1000, 8)]⟩

/-- File-system state of the sentinel lock file `join(gettempdir(), 'asm_lock')`
(util.py line 26): whether it exists, and its permission mode bits. -/
structure LockFile where
  present : Bool
  mode : ℕ
deriving DecidableEq

/-- Program counter of one process running `AsmProcessLock.__init__`
(util.py lines 25-31): `start` is before the `exists(lock_path)` check,
`create` before the `open`/`close` pair, `chmod` before
`chmod(lock_path, 0o777)`, and `done` after initialization (the
`super().__init__(lock_path)` call only records the path). -/
inductive LockInitPc where
  | start
  | create
  | chmod
  | done
deriving DecidableEq

/-- One step of a single process through `AsmProcessLock.__init__`.  `cmode`
is the mode bits a plain `open` gives a file it newly creates (umask
dependent, hence arbitrary); opening an already existing file truncates it
but leaves its mode unchanged, and the `chmod` call sets mode `0o777`, which
is 511. -/
def initStep (cmode : ℕ) (fs : LockFile) : LockInitPc → LockFile × LockInitPc
  | .start => if fs.present then (fs, .done) else (fs, .create)
  | .create =>
    ({ present := true, mode := if fs.present then fs.mode else cmode }, .chmod)
  | .chmod => ({ fs with mode := 511 }, .done)
  | .done => (fs, .done)

/-- Combined state of two processes racing through first-use initialization
on the shared lock file. -/
structure InitSys where
  file : LockFile
  pcA : LockInitPc
  pcB : LockInitPc
deriving DecidableEq

/-- Scheduler step: `true` runs one step of process A (whose `open` would
create the file with mode `cmA`), `false` one step of process B. -/
def sysStep (cmA cmB : ℕ) (b : Bool) (s : InitSys) : InitSys :=
  if b then
    let r := initStep cmA s.file s.pcA
    { s with file := r.1, pcA := r.2 }
  else
    let r := initStep cmB s.file s.pcB
    { s with file := r.1, pcB := r.2 }

/-- Run a whole interleaving of the two initializers. -/
def initRun (cmA cmB : ℕ) : List Bool → InitSys → InitSys
  | [], s => s
  | b :: rest, s => initRun cmA cmB rest (sysStep cmA cmB b s)

/-- Initial state for a first use: the sentinel file absent (its recorded
mode `m0` is irrelevant), both processes before their `exists` check. -/
def initStart (m0 : ℕ) : InitSys :=
  ⟨⟨false, m0⟩, .start, .start⟩

/-- Mode bits grant read and write to every user when the low octal digit
(the `others` bits) contains both read (4) and write (2), i.e. is 6 or 7. -/
def worldReadWrite (mode : ℕ) : Bool :=
  decide (6 ≤ mode % 8)

/-- Inductive invariant of the racing initialization, started from an absent
file: a file can only be present once some process has created it (and is
then at or past its `chmod`); a process at or past `chmod` has seen or made
the file present; and once a process has finished while the other has not
created anything (or both have finished), the mode is `0o777`. -/
def initInv (s : InitSys) : Prop :=
  (s.file.present = true →
    s.pcA = .chmod ∨ s.pcA = .done ∨ s.pcB = .chmod ∨ s.pcB = .done) ∧
  ((s.pcA = .chmod ∨ s.pcA = .done) → s.file.present = true) ∧
  ((s.pcB = .chmod ∨ s.pcB = .done) → s.file.present = true) ∧
  (s.pcA = .done → s.pcB = .start → s.file.mode = 511) ∧
  (s.pcB = .done → s.pcA = .start → s.file.mode = 511) ∧
  (s.pcA = .done → s.pcB = .done → s.file.mode = 511)

/-- The invariant is preserved by every scheduler step. -/
theorem initInv_sysStep (cmA cmB : ℕ) (b : Bool) (s : InitSys)
    (h : initInv s) : initInv (sysStep cmA cmB b s) := by
  obtain ⟨⟨pres, mode⟩, pcA, pcB⟩ := s
  obtain ⟨h1, h2, h3, h4, h5, h6⟩ := h
  cases b <;> cases pcA <;> cases pcB <;> cases pres <;>
    simp_all [sysStep, initStep, initInv]

/-- The invariant is preserved by every interleaving. -/
theorem initInv_initRun (cmA cmB : ℕ) (sched : List Bool) (s : InitSys)
    (h : initInv s) : initInv (initRun cmA cmB sched s) := by
  induction sched generalizing s with
  | nil => exact h
  | cons b rest ih => exact ih _ (initInv_sysStep cmA cmB b s h)

/-- C5: starting from an absent sentinel file, for every interleaving of two
processes running `AsmProcessLock.__init__` (each may find the file absent
and create it, or find it present and skip the branch), once both have
finished the file exists and its mode is `0o777` — readable and writable by
any user.  In particular a single uncontended construction creates the file
world-writable, and the benign creation race always reaches that end state. -/
theorem asm_lock_init_world_writable (m0 cmA cmB : ℕ) (sched : List Bool)
    (hA : (initRun cmA cmB sched (initStart m0)).pcA = .done)
    (hB : (initRun cmA cmB sched (initStart m0)).pcB = .done) :
    (initRun cmA cmB sched (initStart m0)).file.present = true ∧
      (initRun cmA cmB sched (initStart m0)).file.mode = 511 ∧
      worldReadWrite (initRun cmA cmB sched (initStart m0)).file.mode = true := by
  have hinv : initInv (initRun cmA cmB sched (initStart m0)) := by
    apply initInv_initRun
    simp [initInv, initStart]
  obtain ⟨h1, h2, h3, h4, h5, h6⟩ := hinv
  have hmode := h6 hA hB
  refine ⟨h2 (Or.inr hA), hmode, ?_⟩
  rw [hmode]
  rfl

/-- Witness for C5: process A runs the whole initialization (check, create,
chmod), then process B finds the file present and skips; `open` would have
created the file with mode `0o644`. -/
theorem asm_lock_init_world_writable_witness :
    ((initRun 420 420 [true, true, true, false] (initStart 0)).pcA = .done ∧
      (initRun 420 420 [true, true, true, false] (initStart 0)).pcB = .done) ∧
      ((initRun 420 420 [true, true, true, false] (initStart 0)).file.present
          = true ∧
        (initRun 420 420 [true, true, true, false] (initStart 0)).file.mode
          = 511 ∧
        worldReadWrite
          (initRun 420 420 [true, true, true, false] (initStart 0)).file.mode
          = true) :=
  ⟨⟨by decide, by decide⟩,
    asm_lock_init_world_writable 0 420 420 [true, true, true, false]
      (by decide) (by decide)⟩

/-- Exit-code computation `get_error_code` from `__main__.py` line 12:
`1 + (sum(map(ord, error_cls.__name__)) % 255)`. -/
def get_error_code (name : String) : ℕ :=
  1 + (name.data.map Char.toNat).sum % 255

/-- Observable events of the guarded region in `main` (`__main__.py` lines
96-107): lock acquisition on entering `with asm.lock:`, an invocation of the
selected command function `main_functions[args.action]()`, and the release
performed when the `with` block is exited on any path. -/
inductive Ev where
  | acquire
  | mutate
  | release
deriving DecidableEq

/-- Outcome of the command-function call inside the `try`: the function
returns `False`, returns a string to print, returns any other value, raises
an `AsmException` subclass with the given class name, or raises some other
exception. -/
inductive MainOutcome (ε : Type) where
  | retFalse
  | retStr (s : String)
  | retOther
  | asmExc (name : String)
  | otherExc (e : ε)

/-- Body of the `with asm.lock:` block (`__main__.py` lines 97-107): invoke
the command function, return 1 on a `False` result, print and return 0 on a
string result, return 0 otherwise; an `AsmException` is caught and mapped to
`get_error_code`; any other exception propagates.  Returns the events the
body emits and its exit code or propagated exception. -/
def guardedBody {ε : Type} : MainOutcome ε → List Ev × Except ε ℕ
  | .retFalse => ([.mutate], .ok 1)
  | .retStr _ => ([.mutate], .ok 0)
  | .retOther => ([.mutate], .ok 0)
  | .asmExc name => ([.mutate], .ok (get_error_code name))
  | .otherExc e => ([.mutate], .error e)

/-- The `with asm.lock:` statement around the body (`__main__.py` line 96):
on successful acquisition the lock is acquired, the body runs, and the
release happens on every exit of the block — also when the body's exception
propagates; a failed acquisition propagates before the body ever runs, so no
command function is invoked and nothing is released. -/
def mainWithLock {ε : Type} (acq : Except ε Unit) (o : MainOutcome ε) :
    List Ev × Except ε ℕ :=
  match acq with
  | .error e => ([], .error e)
  | .ok _ =>
    let b := guardedBody o
    (Ev.acquire :: b.1 ++ [Ev.release], b.2)

/-- C7: in the CLI entry point the lock is acquired before the command
function is invoked and released on every exit path of the guarded region —
normal return (`False`, string or other result), a caught `AsmException`, or
any other exception — while a failed acquisition aborts with the acquisition
error before any command function runs: the trace is then empty, containing
no `mutate`. -/
theorem main_lock_scoped {ε : Type} (acq : Except ε Unit) (o : MainOutcome ε) :
    (mainWithLock acq o).1 = [Ev.acquire, Ev.mutate, Ev.release] ∨
      (∃ e, acq = Except.error e ∧
        mainWithLock acq o = ([], Except.error e)) := by
  match acq with
  | .error e => exact Or.inr ⟨e, rfl, rfl⟩
  | .ok _ =>
    left
    match o with
    | .retFalse => rfl
    | .retStr s => rfl
    | .retOther => rfl
    | .asmExc name => rfl
    | .otherExc e => rfl
